import Mathlib

/-!
Verification development for the scumaps star-system repository.

The definitions below are a shallow embedding of the TypeScript sources:
* `StarSystemService` (raw-record ingestion, inference/repair of parent
  links, object construction, root detection, queries),
* `SpaceUtils` / `stantonParser` geometry helpers,
* `routePlanner` (route planning, waypoint safety, alternative routes),
* `alertUtils` (hazard safety scoring),
* `SystemDebugger.validateData` (position validation pass).

JavaScript numbers are modelled as `ℚ` wherever the code performs only
field arithmetic and comparisons; `Math.sqrt`, `Math.cos`, `Math.sin`
are modelled over `ℝ`.  JavaScript string-keyed objects and `Map`s are
modelled as insertion-ordered association lists.  The TypeScript enum
`ObjectType` is a string enum, and the classifier's final fallback
stores the raw payload string unchanged, so object types are modelled
as plain strings.
-/

/-! ## JavaScript string helpers -/

/-- Character-list prefix test (used to implement substring search). -/
def leadsWith : List Char → List Char → Bool
  | [], _ => true
  | _ :: _, [] => false
  | p :: ps, c :: cs => p == c && leadsWith ps cs

/-- Substring occurrence test on character lists. -/
def subOccurs (pat : List Char) : List Char → Bool
  | [] => pat.isEmpty
  | c :: rest => leadsWith pat (c :: rest) || subOccurs pat rest

/-- Model of JavaScript `s.includes(pat)`. -/
def strIncludes (s pat : String) : Bool :=
  subOccurs pat.toList s.toList

/-- Model of JavaScript `s.toLowerCase()` (per-character lowering; ids in
this data are ASCII).  Implemented over the character list so that it
reduces in the kernel. -/
def strToLower (s : String) : String :=
  String.mk (s.data.map Char.toLower)

/-- Model of JavaScript `opt || dflt` for optional strings (empty string is falsy). -/
def jsOrStr (o : Option String) (dflt : String) : String :=
  match o with
  | some s => if s == "" then dflt else s
  | none => dflt

/-- Model of JavaScript string truthiness for an optional field. -/
def strTruthy (o : Option String) : Bool :=
  match o with
  | some s => s != ""
  | none => false

/-! ## Model of the regular expression `/stanton(\d+)_l(\d+)/`

JavaScript `String.prototype.match` searches for the leftmost occurrence
of the (unanchored) pattern.  Since a digit run can never overlap the
literal `_l`, the greedy `\d+` needs no backtracking: at each candidate
start position we match the literal `stanton`, a maximal nonempty digit
run, the literal `_l`, and a nonempty digit run. -/

/-- Try to match `stanton(\d+)_l(\d+)` at the head of the character list,
returning the two capture groups. -/
def lagrangeAt (cs : List Char) : Option (String × String) :=
  if leadsWith "stanton".toList cs then
    let rest := cs.drop 7
    let d1 := rest.takeWhile Char.isDigit
    let rest1 := rest.dropWhile Char.isDigit
    if d1.isEmpty then none
    else if leadsWith "_l".toList rest1 then
      let rest2 := rest1.drop 2
      let d2 := rest2.takeWhile Char.isDigit
      if d2.isEmpty then none else some (String.mk d1, String.mk d2)
    else none
  else none

/-- Leftmost match of `stanton(\d+)_l(\d+)` in a character list. -/
def findLagrange : List Char → Option (String × String)
  | [] => none
  | c :: rest =>
    match lagrangeAt (c :: rest) with
    | some r => some r
    | none => findLagrange rest

/-- Model of `s.match(/stanton(\d+)_l(\d+)/)`, returning the captured
planet-number and lagrange-number digit strings. -/
def matchLagrange (s : String) : Option (String × String) :=
  findLagrange s.toList

/-! ## Data model (`StarSystemTypes.ts` and raw JSON records) -/

/-- 3-vector position (JS object `{x, y, z}`). -/
structure Position where
  x : ℚ
  y : ℚ
  z : ℚ
deriving DecidableEq

/-- Quaternion rotation (JS object `{w, x, y, z}`). -/
structure Rotation where
  w : ℚ
  x : ℚ
  y : ℚ
  z : ℚ
deriving DecidableEq

/-- A raw JSON record as consumed by `StarSystemService`: every field the
service reads is optional and loosely typed. -/
structure RawData where
  name : Option String := none
  display_name : Option String := none
  parent : Option String := none
  position : Option Position := none
  rotation : Option Rotation := none
  size : Option ℚ := none
  arrivalRadius : Option ℚ := none
  obstructionRadius : Option ℚ := none
  atmoHeight : Option ℚ := none
  system_entity_name : Option String := none
  type : Option String := none
deriving DecidableEq

/-- `CelestialObject` from `StarSystemTypes.ts`.  `ObjectType` is a string
enum in TypeScript and the classifier's fallback can store an arbitrary
payload string, so `type` is modelled as `String`. -/
structure CelestialObject where
  name : String
  display_name : String
  parent : String
  type : String
  position : Position
  rotation : Rotation
  size : ℚ
  arrivalRadius : ℚ
  obstructionRadius : ℚ
  atmoHeight : ℚ
  system_entity_name : String
deriving DecidableEq

/-- The raw record map `Record<string, any>`: insertion-ordered association list. -/
abbrev RawMap := List (String × RawData)

/-- JS `obj[k] = v` / `Map.set`: update in place if the key exists, else append. -/
def jsSet {α : Type} (m : List (String × α)) (k : String) (v : α) :
    List (String × α) :=
  if (m.find? (fun e => e.1 == k)).isSome then
    m.map (fun e => if e.1 == k then (k, v) else e)
  else m ++ [(k, v)]

/-! ## `StarSystemService.createCelestialObject` -/

/-- Payload type-field test `data.type && data.type === t` from the classifier. -/
def typeIs (dtype : Option String) (t : String) : Bool :=
  dtype == some t

/-- The type-determination chain of `StarSystemService.createCelestialObject`
(lines 243-269): case-insensitive id keyword checks, several of which also
accept an exact payload `type`, with a final fallback
`(data.type as ObjectType) || Generic`. -/
def classify (id : String) (dtype : Option String) : String :=
  let l := strToLower id
  if strIncludes l "jumppoint" then "JumpPoint"
  else if strIncludes l "lagrange" then "LagrangePoint"
  else if strIncludes l "commarray" then "CommArray"
  else if strIncludes l "star" then "Star"
  else if strIncludes l "planet" || typeIs dtype "Planet" then "Planet"
  else if strIncludes l "moon" || typeIs dtype "Moon" then "Moon"
  else if strIncludes l "station" || typeIs dtype "Station" then "Station"
  else if strIncludes l "outpost" || typeIs dtype "Outpost" then "Outpost"
  else if strIncludes l "reststop" || typeIs dtype "RestStop" then "RestStop"
  else if strIncludes l "landingzone" || typeIs dtype "LandingZone" then "LandingZone"
  else if strIncludes l "orbitmarker" || typeIs dtype "OrbitMarker" then "OrbitMarker"
  else jsOrStr dtype "Generic"

/-- `StarSystemService.createCelestialObject`: construct a `CelestialObject`
from a raw record, defaulting absent fields. -/
def createCelestialObject (id : String) (data : RawData) : CelestialObject where
  name := id
  display_name := jsOrStr data.display_name id
  parent := jsOrStr data.parent ""
  type := classify id data.type
  position := data.position.getD ⟨0, 0, 0⟩
  rotation := data.rotation.getD ⟨1, 0, 0, 0⟩
  size := data.size.getD 0
  arrivalRadius := data.arrivalRadius.getD 0
  obstructionRadius := data.obstructionRadius.getD 0
  atmoHeight := data.atmoHeight.getD 0
  system_entity_name := jsOrStr data.system_entity_name id

/-! ## `StarSystemService.createInferredObjects` -/

/-- The set of truthy `parent` strings referenced by the records, in first
occurrence order (JS `Set` iteration order). -/
def referencedParents (sys : RawMap) : List String :=
  sys.foldl (fun acc e =>
    match e.2.parent with
    | some p => if p == "" || acc.contains p then acc else acc ++ [p]
    | none => acc) []

/-- The placeholder LagrangePoint record synthesized by
`createInferredObjects` for a missing parent id matching the lagrange
pattern, with capture groups `d1` (planet number) and `d2` (lagrange number). -/
def inferredLagrange (parentId d1 d2 : String) : RawData where
  name := some parentId
  display_name := some ("L" ++ d2)
  parent := some ("stanton" ++ d1)
  position := some ⟨0, 0, 0⟩
  rotation := some ⟨1, 0, 0, 0⟩
  size := some 1000
  arrivalRadius := some 1000
  obstructionRadius := some 0
  atmoHeight := some 0
  system_entity_name := some ("Inferred_" ++ parentId)
  type := some "LagrangePoint"

/-- One step of the inference scan: synthesize a placeholder for a
referenced parent id that is absent from the record map and matches the
lagrange pattern. -/
def inferStep (sys : RawMap) (acc : RawMap) (pid : String) : RawMap :=
  if (List.lookup pid sys).isSome then acc
  else
    match matchLagrange pid with
    | some (d1, d2) => jsSet acc pid (inferredLagrange pid d1 d2)
    | none => acc

/-- `StarSystemService.createInferredObjects`: synthesize placeholder
records for referenced-but-undefined parent ids matching
`/stanton(\d+)_l(\d+)/` and append them to the record map. -/
def createInferredObjects (sys : RawMap) : RawMap :=
  let inferred : RawMap := (referencedParents sys).foldl (inferStep sys) []
  inferred.foldl (fun s e => jsSet s e.1 e.2) sys

/-! ## `StarSystemService.fixParentChildRelationships`

This pass mutates the *raw* record map `this.systemData`; it runs after
the first pass has already constructed the `CelestialObject`s (which
copy their `parent` strings), so its effect is visible only in the
service's retained raw data. -/

/-- The key whose lowercased form contains `star` or `sun` (first in
iteration order), used as the repair target. -/
def findStarKey (sys : RawMap) : Option String :=
  (sys.find? (fun e =>
    strIncludes (strToLower e.1) "star" || strIncludes (strToLower e.1) "sun")).map (·.1)

/-- Clear the star record's `'root'` sentinel parent to the empty string. -/
def fixStarRoot (sys : RawMap) : RawMap :=
  match findStarKey sys with
  | none => sys
  | some sk =>
    match List.lookup sk sys with
    | some d =>
      if d.parent == some "root" then jsSet sys sk { d with parent := some "" }
      else sys
    | none => sys

/-- Per-record repair step of `fixParentChildRelationships` (lines 196-235):
retarget a truthy parent that does not resolve to a known id. -/
def fixEntry (known : List String) (starKey : Option String)
    (id : String) (d : RawData) : RawData :=
  match d.parent with
  | none => d
  | some p =>
    if p == "" then d
    else if known.contains p then d
    else
      if strIncludes id "_l" && strIncludes id "stanton" then
        match matchLagrange id with
        | some (d1, _) =>
          let planetId := "stanton" ++ d1
          if known.contains planetId then { d with parent := some planetId }
          else { d with parent := some (starKey.getD "") }
        | none => d
      else if strIncludes id "station_reststop" && strIncludes id "stanton" then
        match matchLagrange p with
        | some (d1, _) =>
          let planetId := "stanton" ++ d1
          if known.contains planetId then { d with parent := some planetId }
          else { d with parent := some (starKey.getD "") }
        | none => d
      else { d with parent := some (starKey.getD "") }

/-- `StarSystemService.fixParentChildRelationships`: clear the star's
`'root'` parent, then repair each record whose parent is unknown. -/
def fixParentChildRelationships (sys : RawMap) : RawMap :=
  let known := sys.map (·.1)
  let starKey := findStarKey sys
  let sys1 := fixStarRoot sys
  sys1.map (fun e => (e.1, fixEntry known starKey e.1 e.2))

/-! ## First pass, indexes, root detection, build -/

/-- First pass of `processSystemData`: create all objects (by-id index;
keys of a JS object are unique, so insertion is plain traversal). -/
def buildObjects (sys : RawMap) : List (String × CelestialObject) :=
  sys.map (fun e => (e.1, createCelestialObject e.1 e.2))

/-- `map.get(k) || []` followed by `push` and `set`: append to a keyed group. -/
def groupPush (m : List (String × List CelestialObject)) (k : String)
    (o : CelestialObject) : List (String × List CelestialObject) :=
  jsSet m k ((List.lookup k m).getD [] ++ [o])

/-- The by-type index built during the first pass. -/
def buildByType (objs : List (String × CelestialObject)) :
    List (String × List CelestialObject) :=
  objs.foldl (fun m e => groupPush m e.2.type e.2) []

/-- The by-parent index built during the first pass. -/
def buildByParent (objs : List (String × CelestialObject)) :
    List (String × List CelestialObject) :=
  objs.foldl (fun m e => groupPush m e.2.parent e.2) []

/-- `StarSystemService.findStar`: first object indexed under type `Star`,
else first object whose id contains `star`, else first object with an
empty parent. -/
def findStar (byId : List (String × CelestialObject))
    (byType : List (String × List CelestialObject)) : Option CelestialObject :=
  match List.lookup "Star" byType with
  | some (o :: _) => some o
  | _ =>
    match byId.find? (fun e => strIncludes (strToLower e.1) "star") with
    | some e => some e.2
    | none => (byId.find? (fun e => e.2.parent == "")).map (·.2)

/-- Result of a successful `processSystemData` call: the detected star,
the three indexes, and the service's retained (repaired) raw records. -/
structure BuildResult where
  star : CelestialObject
  objectsById : List (String × CelestialObject)
  objectsByType : List (String × List CelestialObject)
  objectsByParent : List (String × List CelestialObject)
  finalRecords : RawMap
deriving DecidableEq

/-- `StarSystemService.processSystemData`: inference pass, object
construction and indexing, raw-record repair, root detection.  Returns
`none` where the code throws (`Star not found in the system data`).
`buildHierarchy` only recomputes positions that are immediately
discarded, so it contributes nothing to the result. -/
def processSystemData (sysData : RawMap) : Option BuildResult :=
  let sys := createInferredObjects sysData
  let byId := buildObjects sys
  let byType := buildByType byId
  let byParent := buildByParent byId
  let fixedSys := fixParentChildRelationships sys
  match findStar byId byType with
  | none => none
  | some star =>
    some { star := star, objectsById := byId, objectsByType := byType,
           objectsByParent := byParent, finalRecords := fixedSys }

/-! ## Query service (`StarSystemService` queries) -/

/-- `StarSystemService.getObjectById`: `Map.get`, `undefined` modelled as `none`. -/
def getObjectById (byId : List (String × CelestialObject)) (id : String) :
    Option CelestialObject :=
  List.lookup id byId

/-- Componentwise position sum. -/
def posAdd (a b : Position) : Position :=
  ⟨a.x + b.x, a.y + b.y, a.z + b.z⟩

/-- The `while (parentId && parentId !== "")` accumulation loop of
`getAbsolutePosition`, with explicit fuel: the source loop has no bound
and diverges on a cyclic parent chain, so every theorem about it is
stated under a termination hypothesis (`chainTerminates`). -/
def walkAbs (byId : List (String × CelestialObject)) :
    Nat → String → Position → Position
  | 0, _, acc => acc
  | n + 1, pid, acc =>
    if pid == "" then acc
    else
      match List.lookup pid byId with
      | none => acc
      | some par => walkAbs byId n par.parent (posAdd acc par.position)

/-- `StarSystemService.getAbsolutePosition`: `null` for an unknown id, else
the accumulated parent-chain sum starting from the object's own position. -/
def getAbsolutePosition (byId : List (String × CelestialObject)) (id : String)
    (fuel : Nat) : Option Position :=
  match List.lookup id byId with
  | none => none
  | some o => some (walkAbs byId fuel o.parent o.position)

/-- The parent links resolved by the `getAbsolutePosition` walk, in walk
order, truncated by fuel. -/
def ancestorChain (byId : List (String × CelestialObject)) :
    Nat → String → List CelestialObject
  | 0, _ => []
  | n + 1, pid =>
    if pid == "" then []
    else
      match List.lookup pid byId with
      | none => []
      | some par => par :: ancestorChain byId n par.parent

/-- The parent-chain walk from `pid` terminates (empty parent reached, or a
link fails to resolve) within the given fuel. -/
def chainTerminates (byId : List (String × CelestialObject)) :
    Nat → String → Bool
  | 0, _ => false
  | n + 1, pid =>
    pid == "" ||
      match List.lookup pid byId with
      | none => true
      | some par => chainTerminates byId n par.parent

/-- The parent chain starting at `pid` reaches the object named `root`
within `fuel` hops, resolving every intermediate link through `byId`. -/
def reaches (byId : List (String × CelestialObject)) (root : String) :
    String → Nat → Bool
  | pid, 0 => pid == root
  | pid, n + 1 =>
    pid == root ||
      match List.lookup pid byId with
      | none => false
      | some o => reaches byId root o.parent n

/-! ## `SpaceUtils.generateOrbitPath` and `getOrbitPath`

The orbit geometry uses `Math.sqrt`/`cos`/`sin`, modelled over `ℝ`.
JavaScript produces `NaN` coordinates on division by zero where Lean's
real division yields `0`; no claim depends on the numeric coordinates of
orbit points, only on the shape of the returned list. -/

/-- A 3-vector with real coordinates (orbit-path points). -/
structure RPoint where
  x : ℝ
  y : ℝ
  z : ℝ

/-- Cross product as written componentwise in `generateOrbitPath`. -/
noncomputable def crossP (a b : RPoint) : RPoint :=
  ⟨a.y * b.z - a.z * b.y, a.z * b.x - a.x * b.z, a.x * b.y - a.y * b.x⟩

/-- Euclidean magnitude of an `RPoint`. -/
noncomputable def rMag (p : RPoint) : ℝ :=
  Real.sqrt (p.x * p.x + p.y * p.y + p.z * p.z)

/-- Scale an `RPoint` by the inverse of a magnitude (normalization step). -/
noncomputable def rScaleInv (p : RPoint) (m : ℝ) : RPoint :=
  ⟨p.x / m, p.y / m, p.z / m⟩

/-- `SpaceUtils.generateOrbitPath`: sample `steps` points (`for i = 0; i <
steps`) on a circle of radius the local-position magnitude, in the plane
spanned by two normalized basis vectors built from cross products with a
fixed up-vector (swapped when the position is near-parallel to it). -/
noncomputable def generateOrbitPath (object : CelestialObject) (steps : Nat) :
    List RPoint :=
  let p : RPoint := ⟨(object.position.x : ℝ), (object.position.y : ℝ), (object.position.z : ℝ)⟩
  let radius := rMag p
  let positionMagnitude := rMag p
  let posNorm := rScaleInv p positionMagnitude
  let perpVector : RPoint := if |posNorm.y| > 9 / 10 then ⟨1, 0, 0⟩ else ⟨0, 1, 0⟩
  let v1 := crossP posNorm perpVector
  let v1Norm := rScaleInv v1 (rMag v1)
  let v2 := crossP posNorm v1Norm
  let v2Norm := rScaleInv v2 (rMag v2)
  (List.range steps).map (fun i =>
    let angle := ((i : ℝ) / (steps : ℝ)) * Real.pi * 2
    ⟨radius * Real.cos angle * v1Norm.x + radius * Real.sin angle * v2Norm.x,
     radius * Real.cos angle * v1Norm.y + radius * Real.sin angle * v2Norm.y,
     radius * Real.cos angle * v1Norm.z + radius * Real.sin angle * v2Norm.z⟩)

/-- `StarSystemService.getOrbitPath`: the empty list for an unknown id,
else the sampled orbit path. -/
noncomputable def getOrbitPath (byId : List (String × CelestialObject))
    (objectId : String) (steps : Nat) : List RPoint :=
  match List.lookup objectId byId with
  | none => []
  | some o => generateOrbitPath o steps

/-! ## Alert model (`alertUtils.ts`) -/

/-- Alert location (`{position, regionId}`). -/
structure AlertLocation where
  position : Position
  regionId : String
deriving DecidableEq

/-- `RouteAlert` from `models/stanton` (counts form of confirmations/disputes). -/
structure RouteAlert where
  id : String
  location : AlertLocation
  alertType : String
  createdBy : String
  createdAt : ℤ
  expiresAt : ℤ
  confirmations : ℕ
  disputes : ℕ
  shardId : String
  safetyScore : ℚ
deriving DecidableEq

/-- `alertUtils.calculateSafetyScore`: neutral 50 with no votes, else the
confirmation-ratio formula clamped to `[0, 100]`. -/
def calculateSafetyScore (confirmations disputes : ℕ)
    (confirmationWeight disputeWeight : ℚ) : ℚ :=
  let totalVotes := confirmations + disputes
  if totalVotes = 0 then 50
  else
    let confirmationRatio : ℚ := (confirmations : ℚ) / (totalVotes : ℚ)
    let rawScore := 100 - confirmationRatio * 100 * confirmationWeight
      + (1 - confirmationRatio) * 100 * disputeWeight
    max 0 (min 100 rawScore)

/-! ## Geometry (`stantonParser.calculateDistance`) -/

/-- Squared componentwise distance (the radicand of `calculateDistance`). -/
def distSq (pos1 pos2 : Position) : ℚ :=
  let dx := pos2.x - pos1.x
  let dy := pos2.y - pos1.y
  let dz := pos2.z - pos1.z
  dx * dx + dy * dy + dz * dz

/-- `stantonParser.calculateDistance`: Euclidean distance. -/
noncomputable def calculateDistance (pos1 pos2 : Position) : ℝ :=
  Real.sqrt ((distSq pos1 pos2 : ℚ) : ℝ)

/-- Executable form of the filter test `calculateDistance p q ≤ radius`
used by `findAlertsInRadius`, decided over `ℚ` (equivalent by
`withinRadius_iff`). -/
def withinRadius (p q : Position) (radius : ℚ) : Bool :=
  decide (0 ≤ radius) && decide (distSq p q ≤ radius * radius)

/-- `alertUtils.findAlertsInRadius`: filter the alerts whose position is
within `radius` of `position`. -/
def findAlertsInRadius (position : Position) (alerts : List RouteAlert)
    (radius : ℚ) : List RouteAlert :=
  alerts.filter (fun alert => withinRadius position alert.location.position radius)

/-! ## Route planner (`routePlanner.ts`) -/

/-- `BaseCelestialObject` from `models/stanton.ts` (the flat-record shape
used by the route planner; `type` is a string union in TypeScript). -/
structure StantonCelestialObject where
  arrivalRadius : ℚ
  atmoHeight : ℚ
  display_name : String
  name : String
  obstructionRadius : ℚ
  parent : String
  position : Position
  rotation : Rotation
  size : ℚ
  system_entity_name : String
  type : String
deriving DecidableEq

/-- `StantonSystem`: the flat id-keyed record of celestial objects. -/
abbrev StantonSystem := List (String × StantonCelestialObject)

/-- `ShipSpecification` from `models/stanton.ts`. -/
structure ShipSpecification where
  id : String
  name : String
  manufacturer : String
  size : ℚ
  fuelCapacity : ℚ
  fuelConsumption : ℚ
  quantumSpeed : ℚ
  scmSpeed : ℚ
  cargoCapacity : ℚ
deriving DecidableEq

/-- `RouteWaypoint` (`routePlanner.ts`): incremental distance and time are
real-valued (they come from the square-root distance). -/
structure RouteWaypoint where
  objectId : String
  position : Position
  distance : ℝ
  timeFromPrevious : ℝ
  nearbyAlerts : List RouteAlert
  safetyScore : ℚ

/-- `RoutePlan` (`routePlanner.ts`). -/
structure RoutePlan where
  startObjectId : String
  endObjectId : String
  waypoints : List RouteWaypoint
  totalDistance : ℝ
  totalTime : ℝ
  fuelRequired : ℝ
  overallSafetyScore : ℚ

/-- `calculateWaypointSafety` (`routePlanner.ts` lines 132-144): 100 with
no nearby alerts, else the average alert safety score discounted by
`max(0, 1 - 0.1 * count)`. -/
def calculateWaypointSafety (nearbyAlerts : List RouteAlert) : ℚ :=
  if nearbyAlerts.isEmpty then 100
  else
    let avgAlertSafety :=
      (nearbyAlerts.foldl (fun sum alert => sum + alert.safetyScore) 0) /
        (nearbyAlerts.length : ℚ)
    let alertCountFactor := max 0 (1 - (nearbyAlerts.length : ℚ) * (1 / 10))
    avgAlertSafety * alertCountFactor

/-- The effective quantum speed `ship?.quantumSpeed || DEFAULT_QUANTUM_SPEED`
(0 is falsy in JavaScript, so a zero ship speed also falls back to 200000). -/
def effectiveQuantumSpeed (ship : Option ShipSpecification) : ℚ :=
  match ship with
  | some sh => if sh.quantumSpeed = 0 then 200000 else sh.quantumSpeed
  | none => 200000

/-- `planRoute` (`routePlanner.ts` lines 45-125): direct point-to-point
route with exactly three waypoints (start, geometric midpoint, end),
annotated with the alerts within a fixed 1,000,000-unit radius.  The
thrown `'Start or end object not found in Stanton data'` error is
modelled as `none`. -/
noncomputable def planRoute (stantonData : StantonSystem)
    (startObjectId endObjectId : String) (activeAlerts : List RouteAlert)
    (ship : Option ShipSpecification) : Option RoutePlan :=
  match List.lookup startObjectId stantonData,
        List.lookup endObjectId stantonData with
  | some startObject, some endObject =>
    let distance := calculateDistance startObject.position endObject.position
    let quantumSpeed := effectiveQuantumSpeed ship
    let time := distance / (quantumSpeed : ℝ)
    let fuelRequired : ℝ :=
      match ship with
      | some sh => distance * (sh.fuelConsumption : ℝ) / 1000000
      | none => 0
    let midPoint : Position :=
      ⟨(startObject.position.x + endObject.position.x) / 2,
       (startObject.position.y + endObject.position.y) / 2,
       (startObject.position.z + endObject.position.z) / 2⟩
    let alertRadius : ℚ := 1000000
    let startAlerts := findAlertsInRadius startObject.position activeAlerts alertRadius
    let midAlerts := findAlertsInRadius midPoint activeAlerts alertRadius
    let endAlerts := findAlertsInRadius endObject.position activeAlerts alertRadius
    let waypoints : List RouteWaypoint :=
      [⟨startObjectId, startObject.position, 0, 0, startAlerts,
          calculateWaypointSafety startAlerts⟩,
       ⟨"midpoint", midPoint, distance / 2, time / 2, midAlerts,
          calculateWaypointSafety midAlerts⟩,
       ⟨endObjectId, endObject.position, distance / 2, time / 2, endAlerts,
          calculateWaypointSafety endAlerts⟩]
    let overallSafetyScore :=
      (waypoints.foldl (fun sum wp => sum + wp.safetyScore) 0) /
        (waypoints.length : ℚ)
    some { startObjectId := startObjectId, endObjectId := endObjectId,
           waypoints := waypoints, totalDistance := distance, totalTime := time,
           fuelRequired := fuelRequired, overallSafetyScore := overallSafetyScore }
  | _, _ => none

/-- The candidate via-point filter of `findAlternativeRoutes` (lines
207-213): LagrangePoint- or Station-typed objects or direct children of
`stantonstar`, excluding objects whose *name field* equals an endpoint id. -/
def waypointCandidates (stantonData : StantonSystem)
    (startObjectId endObjectId : String) : List StantonCelestialObject :=
  ((stantonData.map (·.2)).filter (fun obj =>
      obj.type == "LagrangePoint" || obj.type == "Station" ||
        obj.parent == "stantonstar")).filter (fun obj =>
    obj.name != startObjectId && obj.name != endObjectId)

/-- The candidate loop of `findAlternativeRoutes` (lines 218-255): stop at
`maxAlternatives` accepted routes, compose the two legs through each
candidate, keep a composition only when it beats the direct route's
safety score by more than 5.  A failing leg (`planRoute` throw, i.e. a
candidate whose `name` field is not a key) aborts the whole call: `none`. -/
noncomputable def altLoop (stantonData : StantonSystem)
    (startObjectId endObjectId : String) (activeAlerts : List RouteAlert)
    (maxAlternatives : Nat) (directRoute : RoutePlan) :
    List StantonCelestialObject → List RoutePlan → Option (List RoutePlan)
  | [], acc => some acc
  | waypoint :: rest, acc =>
    if maxAlternatives ≤ acc.length then some acc
    else
      match planRoute stantonData startObjectId waypoint.name activeAlerts none,
            planRoute stantonData waypoint.name endObjectId activeAlerts none with
      | some routeToWaypoint, some routeFromWaypoint =>
        let combinedRoute : RoutePlan :=
          { startObjectId := startObjectId, endObjectId := endObjectId,
            waypoints := routeToWaypoint.waypoints.dropLast ++
              routeFromWaypoint.waypoints,
            totalDistance := routeToWaypoint.totalDistance +
              routeFromWaypoint.totalDistance,
            totalTime := routeToWaypoint.totalTime + routeFromWaypoint.totalTime,
            fuelRequired := routeToWaypoint.fuelRequired +
              routeFromWaypoint.fuelRequired,
            overallSafetyScore := (routeToWaypoint.overallSafetyScore +
              routeFromWaypoint.overallSafetyScore) / 2 }
        if directRoute.overallSafetyScore + 5 < combinedRoute.overallSafetyScore then
          altLoop stantonData startObjectId endObjectId activeAlerts
            maxAlternatives directRoute rest (acc ++ [combinedRoute])
        else
          altLoop stantonData startObjectId endObjectId activeAlerts
            maxAlternatives directRoute rest acc
      | _, _ => none

/-- Stable descending insertion by `overallSafetyScore` (model of the JS
stable `sort((a, b) => b.overallSafetyScore - a.overallSafetyScore)`). -/
def insertDesc (r : RoutePlan) : List RoutePlan → List RoutePlan
  | [] => [r]
  | x :: xs =>
    if x.overallSafetyScore < r.overallSafetyScore then r :: x :: xs
    else x :: insertDesc r xs

/-- Stable descending sort by `overallSafetyScore`. -/
def sortDesc : List RoutePlan → List RoutePlan
  | [] => []
  | x :: xs => insertDesc x (sortDesc xs)

/-- `findAlternativeRoutes` (`routePlanner.ts` lines 187-262): direct route
alone when its score is at least 90, else the direct route plus accepted
alternatives, sorted safest first. -/
noncomputable def findAlternativeRoutes (stantonData : StantonSystem)
    (startObjectId endObjectId : String) (activeAlerts : List RouteAlert)
    (maxAlternatives : Nat) : Option (List RoutePlan) :=
  match planRoute stantonData startObjectId endObjectId activeAlerts none with
  | none => none
  | some directRoute =>
    if (90 : ℚ) ≤ directRoute.overallSafetyScore then some [directRoute]
    else
      match altLoop stantonData startObjectId endObjectId activeAlerts
          maxAlternatives directRoute
          (waypointCandidates stantonData startObjectId endObjectId) [] with
      | none => none
      | some alternativeRoutes => some (sortDesc (directRoute :: alternativeRoutes))

/-! ## Validator (`SystemDebugger.validateData`, position pass)

The position check tests `isNaN` on each coordinate, so the value space
must distinguish `NaN` and the infinities from finite numbers; this part
of the model therefore uses an explicit JavaScript-number type. -/

/-- A JavaScript number as far as finiteness checks are concerned. -/
inductive JSNum where
  | fin : ℚ → JSNum
  | nan : JSNum
  | posInf : JSNum
  | negInf : JSNum
deriving DecidableEq

/-- JavaScript `isNaN` on a `JSNum`. -/
def JSNum.isNaNb : JSNum → Bool
  | .nan => true
  | _ => false

/-- `Number.isFinite` on a `JSNum` (what "three finite numeric components"
means; the validator does *not* test this). -/
def JSNum.isFiniteb : JSNum → Bool
  | .fin _ => true
  | _ => false

/-- A position whose components are arbitrary JavaScript numbers. -/
structure VPosition where
  x : JSNum
  y : JSNum
  z : JSNum
deriving DecidableEq

/-- The object fields read by the position-validation pass of
`SystemDebugger.validateData` (lines 532-538). -/
structure VObject where
  name : String
  display_name : String
  position : Option VPosition
deriving DecidableEq

/-- Issue string for a missing position. -/
def posIssueMissing (o : VObject) : String :=
  "Object " ++ o.display_name ++ " (" ++ o.name ++ ") has no position data"

/-- Issue string for a NaN coordinate. -/
def posIssueInvalid (o : VObject) : String :=
  "Object " ++ o.display_name ++ " (" ++ o.name ++ ") has invalid position data"

/-- The loop body of the position-validation pass of
`SystemDebugger.validateData` (lines 531-538): append an issue when the
position is absent or has a NaN coordinate. -/
def posCheckStep (issues : List String) (o : VObject) : List String :=
  match o.position with
  | none => issues ++ [posIssueMissing o]
  | some p =>
    if p.x.isNaNb || p.y.isNaNb || p.z.isNaNb then issues ++ [posIssueInvalid o]
    else issues

/-- Accumulate the position issues over all objects, in iteration order. -/
def positionIssues (objs : List VObject) : List String :=
  objs.foldl posCheckStep []

/-! ## Claim-side reference definitions

These definitions are written from the specification's wording (not from
the source) and exist to be compared with the source-derived functions. -/

/-- One classification rule: an id keyword, an optional payload type that
also triggers the rule, and the resulting object type. -/
structure ClassifyRule where
  keyword : String
  payloadType : Option String
  result : String
deriving DecidableEq

/-- The classifier's rule table in source order.  Rules for
planet/moon/station/outpost/reststop/landingzone/orbitmarker also accept
the payload `type`; the first four are keyword-only. -/
def classifyRules : List ClassifyRule :=
  [⟨"jumppoint", none, "JumpPoint"⟩,
   ⟨"lagrange", none, "LagrangePoint"⟩,
   ⟨"commarray", none, "CommArray"⟩,
   ⟨"star", none, "Star"⟩,
   ⟨"planet", some "Planet", "Planet"⟩,
   ⟨"moon", some "Moon", "Moon"⟩,
   ⟨"station", some "Station", "Station"⟩,
   ⟨"outpost", some "Outpost", "Outpost"⟩,
   ⟨"reststop", some "RestStop", "RestStop"⟩,
   ⟨"landingzone", some "LandingZone", "LandingZone"⟩,
   ⟨"orbitmarker", some "OrbitMarker", "OrbitMarker"⟩]

/-- A rule fires on the lowercased id or (where it has one) on the payload type. -/
def ruleMatches (l : String) (dtype : Option String) (r : ClassifyRule) : Bool :=
  strIncludes l r.keyword ||
    (match r.payloadType with
     | some t => typeIs dtype t
     | none => false)

/-- Classification as the claim describes it: the fixed keyword list is
tested against the id alone, in priority order, first match wins; the
payload `type` is consulted only when no keyword matches. -/
def classifyClaim (id : String) (dtype : Option String) : String :=
  match classifyRules.find? (fun r => strIncludes (strToLower id) r.keyword) with
  | some r => r.result
  | none => jsOrStr dtype "Generic"

/-- Classification as amended: first match over the rule table where the
mixed rules also fire on an exactly matching payload `type`, so the
payload type can preempt later keywords; same final fallback. -/
def classifyAmended (id : String) (dtype : Option String) : String :=
  match classifyRules.find? (ruleMatches (strToLower id) dtype) with
  | some r => r.result
  | none => jsOrStr dtype "Generic"

/-- Waypoint safety as the claim states it: 100 with no nearby hazards,
else the hazard-average safety score times `max(0, 1 - 0.1 * count)`. -/
def waypointSafetySpec (alerts : List RouteAlert) : ℚ :=
  if alerts = [] then 100
  else ((alerts.map (·.safetyScore)).sum / (alerts.length : ℚ)) *
    max 0 (1 - (1 / 10) * (alerts.length : ℚ))

/-- Geometric midpoint of two objects' stored positions. -/
def midpointOf (a b : StantonCelestialObject) : Position :=
  ⟨(a.position.x + b.position.x) / 2, (a.position.y + b.position.y) / 2,
   (a.position.z + b.position.z) / 2⟩

/-- Position-pass issue for one object: emitted exactly when the position
is absent or a coordinate is NaN. -/
def posIssueFor (o : VObject) : Option String :=
  match o.position with
  | none => some (posIssueMissing o)
  | some p =>
    if p.x.isNaNb || p.y.isNaNb || p.z.isNaNb then some (posIssueInvalid o)
    else none

/-- The raw parent-chain walk through the by-id map: `walkSeq byId p i` is
the id reached after `i` parent hops from `p`, `none` once a hop fails to
resolve.  (It does not stop at the root; it is the skeleton underlying
`reaches`.) -/
def walkSeq (byId : List (String × CelestialObject)) : String → Nat → Option String
  | p, 0 => some p
  | p, n + 1 =>
    match List.lookup p byId with
    | none => none
    | some o => walkSeq byId o.parent n

/-! ## Concrete inputs used by counterexamples and witnesses -/

/-- Build a bare `CelestialObject` with the given name, parent and position. -/
def mkObj (name parent : String) (pos : Position) : CelestialObject where
  name := name
  display_name := name
  parent := parent
  type := "Generic"
  position := pos
  rotation := ⟨1, 0, 0, 0⟩
  size := 0
  arrivalRadius := 0
  obstructionRadius := 0
  atmoHeight := 0
  system_entity_name := name

/-- Build a bare `StantonCelestialObject` with the given name, type,
parent and position. -/
def mkSObj (name ty parent : String) (pos : Position) : StantonCelestialObject where
  arrivalRadius := 0
  atmoHeight := 0
  display_name := name
  name := name
  obstructionRadius := 0
  parent := parent
  position := pos
  rotation := ⟨1, 0, 0, 0⟩
  size := 0
  system_entity_name := name
  type := ty

/-- The root-detection example from the specification:
`{sun: {parent: "root"}, stanton1: {parent: "sun"}}`. -/
def c2Ex : RawMap :=
  [("sun", { parent := some "root" }), ("stanton1", { parent := some "sun" })]

/-- A record map with a two-cycle (`a` and `b` parent each other) beside a
star; both parents resolve, so the repair pass leaves the cycle alone. -/
def cycEx : RawMap :=
  [("mystar", {}), ("a", { parent := some "b" }), ("b", { parent := some "a" })]

/-- The lagrange-inference example from the specification:
`{stanton3: {...}, outpost_a: {parent: "stanton3_l1"}}`. -/
def ex3 : RawMap :=
  [("stanton3", {}), ("outpost_a", { parent := some "stanton3_l1" })]

/-- Placeholder build result (used only as a `getD` default). -/
def buildFallback : BuildResult :=
  ⟨mkObj "none" "" ⟨0, 0, 0⟩, [], [], [], []⟩

/-- The build result of the lagrange-inference example. -/
def rEx3 : BuildResult :=
  (processSystemData ex3).getD buildFallback

/-- Three-level chain root(0,0,0) → planet(100,0,0) → moon(0,10,0). -/
def chainEx : List (String × CelestialObject) :=
  [("root", mkObj "root" "" ⟨0, 0, 0⟩),
   ("planet", mkObj "planet" "root" ⟨100, 0, 0⟩),
   ("moon", mkObj "moon" "planet" ⟨0, 10, 0⟩)]

/-- A one-object by-id map (for the orbit-path not-found behaviour). -/
def orbitEx : List (String × CelestialObject) :=
  [("thing", mkObj "thing" "" ⟨3, 4, 0⟩)]

/-- Two objects exactly 1,000,000 units apart. -/
def routeExData : StantonSystem :=
  [("a", mkSObj "a" "Generic" "" ⟨0, 0, 0⟩),
   ("b", mkSObj "b" "Generic" "" ⟨1000000, 0, 0⟩)]

/-- A maximally dangerous alert (safety score 0) at the origin. -/
def alertEx : RouteAlert :=
  { id := "al", location := ⟨⟨0, 0, 0⟩, "r"⟩, alertType := "pirate",
    createdBy := "u", createdAt := 0, expiresAt := 0, confirmations := 0,
    disputes := 0, shardId := "sh", safetyScore := 0 }

/-- Route data whose only via-point candidate is stored under key `"c"`
but carries `name := "ghost"`, which is not a key. -/
def altCexData : StantonSystem :=
  [("s", mkSObj "s" "Generic" "" ⟨0, 0, 0⟩),
   ("e", mkSObj "e" "Generic" "" ⟨1000000, 0, 0⟩),
   ("c", mkSObj "ghost" "Station" "" ⟨0, 0, 0⟩)]

/-- A position with an infinite (non-finite, non-NaN) x coordinate. -/
def infVPos : VPosition :=
  ⟨JSNum.posInf, JSNum.fin 0, JSNum.fin 0⟩

/-- An object whose position has an infinite x coordinate. -/
def infVObj : VObject :=
  ⟨"o1", "O1", some infVPos⟩

/-! ## Theorems -/

/-- The boolean radius test coincides with the source's real comparison
`sqrt(dx²+dy²+dz²) ≤ radius`. -/
theorem withinRadius_iff (p q : Position) (radius : ℚ) :
    withinRadius p q radius = true ↔ calculateDistance p q ≤ (radius : ℚ) := by
  have hsq : (0 : ℝ) ≤ ((distSq p q : ℚ) : ℝ) := by
    have hd : distSq p q = (q.x - p.x) * (q.x - p.x) + (q.y - p.y) * (q.y - p.y)
        + (q.z - p.z) * (q.z - p.z) := rfl
    have h : (0 : ℚ) ≤ distSq p q := by
      rw [hd]
      nlinarith [mul_self_nonneg (q.x - p.x), mul_self_nonneg (q.y - p.y),
        mul_self_nonneg (q.z - p.z)]
    exact_mod_cast h
  constructor
  · intro h
    simp only [withinRadius, Bool.and_eq_true, decide_eq_true_eq] at h
    obtain ⟨h0, hle⟩ := h
    have h0' : (0 : ℝ) ≤ (radius : ℝ) := by exact_mod_cast h0
    have hle' : ((distSq p q : ℚ) : ℝ) ≤ (radius : ℝ) * (radius : ℝ) := by
      exact_mod_cast hle
    unfold calculateDistance
    calc Real.sqrt ((distSq p q : ℚ) : ℝ) ≤ Real.sqrt ((radius : ℝ) * (radius : ℝ)) :=
          Real.sqrt_le_sqrt hle'
      _ = (radius : ℝ) := Real.sqrt_mul_self h0'
  · intro h
    unfold calculateDistance at h
    have h0' : (0 : ℝ) ≤ (radius : ℝ) := le_trans (Real.sqrt_nonneg _) h
    have hle' : ((distSq p q : ℚ) : ℝ) ≤ (radius : ℝ) * (radius : ℝ) := by
      calc ((distSq p q : ℚ) : ℝ) = Real.sqrt ((distSq p q : ℚ) : ℝ) ^ 2 :=
            (Real.sq_sqrt hsq).symm
        _ ≤ (radius : ℝ) ^ 2 := by
            exact pow_le_pow_left₀ (Real.sqrt_nonneg _) h 2
        _ = (radius : ℝ) * (radius : ℝ) := sq (radius : ℝ)
    simp only [withinRadius, Bool.and_eq_true, decide_eq_true_eq]
    refine ⟨by exact_mod_cast h0', by exact_mod_cast hle'⟩

theorem C2_root_detection_fails :
    processSystemData c2Ex = none ∧
      (List.lookup "sun" (fixParentChildRelationships (createInferredObjects c2Ex))).map
          (fun d => d.parent) = some (some "") := by
  decide

theorem C1_counterexample :
    (processSystemData cycEx).map
        (fun r => (r.star.name, reaches r.objectsById r.star.name "b" r.objectsById.length))
      = some ("mystar", false) := by
  decide

theorem C9_counterexample :
    infVObj.position = some infVPos ∧ infVPos.x.isFiniteb = false ∧
      positionIssues [infVObj] = [] := by
  decide

theorem posCheckStep_eq_toList (acc : List String) (o : VObject) :
    posCheckStep acc o = acc ++ (posIssueFor o).toList := by
  unfold posCheckStep posIssueFor
  rcases o.position with _ | p
  · rfl
  · by_cases h : (p.x.isNaNb || p.y.isNaNb || p.z.isNaNb) = true
    · simp [h]
    · simp [h]

theorem positionIssues_foldl_gen (objs : List VObject) :
    ∀ acc : List String,
      objs.foldl posCheckStep acc = acc ++ objs.filterMap posIssueFor := by
  induction objs with
  | nil => intro acc; simp
  | cons o rest ih =>
    intro acc
    simp only [List.foldl_cons, List.filterMap_cons]
    rw [posCheckStep_eq_toList acc o]
    rcases hp : posIssueFor o with _ | s
    · simpa using ih acc
    · simp only [Option.toList_some]
      rw [ih (acc ++ [s])]
      simp

theorem C9_position_issues_characterization :
    (∀ objs : List VObject, positionIssues objs = objs.filterMap posIssueFor) ∧
      ∀ o : VObject, posIssueFor o = none ↔
        ∃ p, o.position = some p ∧ p.x.isNaNb = false ∧ p.y.isNaNb = false ∧
          p.z.isNaNb = false := by
  constructor
  · intro objs
    simpa using positionIssues_foldl_gen objs []
  · intro o
    unfold posIssueFor
    rcases hp : o.position with _ | p
    · simp
    · by_cases h : (p.x.isNaNb || p.y.isNaNb || p.z.isNaNb) = true
      · simp only [h, if_true]
        constructor
        · intro hc; cases hc
        · rintro ⟨q, hq, h1, h2, h3⟩
          cases hq
          simp [h1, h2, h3] at h
      · simp only [h, if_false]
        simp only [Bool.or_eq_true, not_or, Bool.not_eq_true] at h
        exact ⟨fun _ => ⟨p, rfl, h.1.1, h.1.2, h.2⟩, fun _ => rfl⟩

theorem C6_counterexample :
    getOrbitPath orbitEx "missing" 100 = [] ∧ getOrbitPath orbitEx "thing" 0 = [] := by
  constructor
  · rfl
  · rfl

theorem walkAbs_eq_chain_foldl (byId : List (String × CelestialObject)) :
    ∀ (fuel : Nat) (pid : String) (acc : Position),
      chainTerminates byId fuel pid = true →
      walkAbs byId fuel pid acc =
        (ancestorChain byId fuel pid).foldl (fun a par => posAdd a par.position) acc := by
  intro fuel
  induction fuel with
  | zero => intro pid acc h; cases h
  | succ n ih =>
    intro pid acc h
    unfold walkAbs ancestorChain
    unfold chainTerminates at h
    by_cases hp : (pid == "") = true
    · simp [hp]
    · simp only [hp, Bool.false_or] at h ⊢
      rcases hl : List.lookup pid byId with _ | par
      · simp [hl]
      · rw [hl] at h
        simp only [hl, List.foldl_cons]
        exact ih par.parent (posAdd acc par.position) h

/-- C5: `getAbsolutePosition` returns `none` for an absent id; for a
present object whose parent chain terminates (at the root's empty parent
or at an unresolvable link, within the given fuel) it returns the
object's own local position summed componentwise with the positions of
every resolved ancestor along the chain — the early-stop partial sum when
a link dangles. -/
theorem C5_getAbsolutePosition_spec (byId : List (String × CelestialObject))
    (id : String) (fuel : Nat) :
    (List.lookup id byId = none → getAbsolutePosition byId id fuel = none) ∧
      ∀ o, List.lookup id byId = some o →
        chainTerminates byId fuel o.parent = true →
        getAbsolutePosition byId id fuel =
          some ((ancestorChain byId fuel o.parent).foldl
            (fun a par => posAdd a par.position) o.position) := by
  constructor
  · intro h
    unfold getAbsolutePosition
    rw [h]
  · intro o h hterm
    unfold getAbsolutePosition
    rw [h]
    exact congrArg some (walkAbs_eq_chain_foldl byId fuel o.parent o.position hterm)

/-- Witness for C5: in the chain root(0,0,0) → planet(100,0,0) →
moon(0,10,0) the moon's absolute position is (100, 10, 0). -/
theorem C5_witness :
    getAbsolutePosition chainEx "moon" 10 = some ⟨100, 10, 0⟩ := by
  have h := (C5_getAbsolutePosition_spec chainEx "moon" 10).2
    (mkObj "moon" "planet" ⟨0, 10, 0⟩) (by decide) (by decide)
  have hch : ancestorChain chainEx 10 (mkObj "moon" "planet" (⟨0, 10, 0⟩ : Position)).parent
      = [mkObj "planet" "root" ⟨100, 0, 0⟩, mkObj "root" "" ⟨0, 0, 0⟩] := rfl
  rw [h, hch]
  simp only [List.foldl_cons, List.foldl_nil, posAdd, mkObj]
  norm_num

/-- C6 as amended: a query with an unknown id yields the explicit
not-found value for `getObjectById` (`undefined`), `getAbsolutePosition`
(`null`) and `planRoute` (thrown error), but `getOrbitPath` silently
yields the empty list. -/
theorem C6_not_found_behaviour (byId : List (String × CelestialObject))
    (data : StantonSystem) (id s e : String) (steps fuel : Nat)
    (alerts : List RouteAlert) (ship : Option ShipSpecification) :
    (List.lookup id byId = none →
      getObjectById byId id = none ∧ getAbsolutePosition byId id fuel = none ∧
        getOrbitPath byId id steps = []) ∧
      ((List.lookup s data = none ∨ List.lookup e data = none) →
        planRoute data s e alerts ship = none) := by
  constructor
  · intro h
    refine ⟨h, ?_, ?_⟩
    · unfold getAbsolutePosition
      rw [h]
    · unfold getOrbitPath
      rw [h]
  · intro h
    unfold planRoute
    rcases h with h | h
    · rw [h]
    · rw [h]
      rcases List.lookup s data with _ | so <;> rfl

/-- Witness for C6 as amended, at the id `missing` (absent from
`orbitEx`) and the id `nope` (absent from `routeExData`). -/
theorem C6_witness :
    getObjectById orbitEx "missing" = none ∧
      getAbsolutePosition orbitEx "missing" 3 = none ∧
      getOrbitPath orbitEx "missing" 7 = [] ∧
      planRoute routeExData "nope" "b" [] none = none := by
  have h1 := (C6_not_found_behaviour orbitEx routeExData "missing" "nope" "b" 7 3 [] none).1
    (by decide)
  have h2 := (C6_not_found_behaviour orbitEx routeExData "missing" "nope" "b" 7 3 [] none).2
    (Or.inl (by decide))
  exact ⟨h1.1, h1.2.1, h1.2.2, h2⟩

theorem lookup_cons {α : Type} (k a1 : String) (a2 : α) (l : List (String × α)) :
    List.lookup k ((a1, a2) :: l) = if k = a1 then some a2 else List.lookup k l := by
  by_cases h : k = a1
  · have hb : (k == a1) = true := by simp [h]
    simp [List.lookup, hb, h]
  · have hb : (k == a1) = false := by simp [h]
    simp [List.lookup, hb, h]

theorem find?_key_isSome {α : Type} (m : List (String × α)) (k : String) :
    (m.find? (fun e => e.1 == k)).isSome = (List.lookup k m).isSome := by
  induction m with
  | nil => rfl
  | cons a l ih =>
    rcases a with ⟨a1, a2⟩
    rw [lookup_cons]
    by_cases h : a1 = k
    · subst h
      simp [List.find?]
    · rw [List.find?_cons_of_neg, if_neg (fun hk => h hk.symm)]
      · exact ih
      · simp [h]

theorem lookup_none_iff_not_mem_keys {α : Type} (m : List (String × α)) (k : String) :
    List.lookup k m = none ↔ k ∉ m.map (fun e => e.1) := by
  induction m with
  | nil => simp
  | cons a l ih =>
    rcases a with ⟨a1, a2⟩
    rw [lookup_cons]
    by_cases h : k = a1
    · subst h
      simp
    · simp [h, ih]

theorem lookup_map_replace {α : Type} (m : List (String × α)) (k k' : String) (v : α) :
    List.lookup k' (m.map (fun e => if e.1 == k then (k, v) else e))
      = if k' = k then (List.lookup k m).map (fun _ => v) else List.lookup k' m := by
  induction m with
  | nil =>
    simp only [List.map_nil]
    by_cases h : k' = k <;> simp [h]
  | cons a l ih =>
    rcases a with ⟨a1, a2⟩
    simp only [List.map_cons]
    by_cases h1 : a1 = k
    · have hb : (a1 == k) = true := by simp [h1]
      simp only [hb, if_true]
      rw [lookup_cons, lookup_cons k a1 a2 l]
      by_cases h2 : k' = k
      · rw [if_pos h2, if_pos h2, if_pos h1.symm]
        rfl
      · rw [if_neg h2, if_neg h2, ih, if_neg h2, lookup_cons,
          if_neg (fun hh => h2 (hh.trans h1))]
    · have hb : (a1 == k) = false := by simp [h1]
      simp only [hb, Bool.false_eq_true, if_false]
      rw [lookup_cons]
      by_cases h2 : k' = a1
      · have h3 : ¬k' = k := fun hh => h1 (h2.symm.trans hh)
        rw [if_pos h2, if_neg h3, lookup_cons, if_pos h2]
      · rw [if_neg h2, ih]
        by_cases h3 : k' = k
        · rw [if_pos h3, if_pos h3, lookup_cons k a1 a2 l, if_neg (fun hh => h1 hh.symm)]
        · rw [if_neg h3, if_neg h3, lookup_cons k' a1 a2 l, if_neg h2]

theorem lookup_append {α : Type} (l₁ l₂ : List (String × α)) (k : String) :
    List.lookup k (l₁ ++ l₂) =
      match List.lookup k l₁ with
      | some v => some v
      | none => List.lookup k l₂ := by
  induction l₁ with
  | nil => simp
  | cons a l ih =>
    rcases a with ⟨a1, a2⟩
    by_cases h : k = a1
    · subst h
      simp [lookup_cons]
    · simp only [List.cons_append, lookup_cons, if_neg h]
      exact ih

theorem lookup_jsSet {α : Type} (m : List (String × α)) (k : String) (v : α) (k' : String) :
    List.lookup k' (jsSet m k v) = if k' = k then some v else List.lookup k' m := by
  unfold jsSet
  by_cases hpres : (m.find? (fun e => e.1 == k)).isSome = true
  · rw [if_pos hpres, lookup_map_replace]
    by_cases h : k' = k
    · subst h
      rw [if_pos rfl, if_pos rfl]
      rw [find?_key_isSome] at hpres
      rcases hl : List.lookup k' m with _ | w
      · rw [hl] at hpres
        cases hpres
      · rfl
    · rw [if_neg h, if_neg h]
  · have hnone : List.lookup k m = none := by
      rw [find?_key_isSome] at hpres
      rcases hl : List.lookup k m with _ | w
      · rfl
      · rw [hl] at hpres
        simp at hpres
    rw [if_neg hpres, lookup_append]
    by_cases h : k' = k
    · subst h
      simp only [hnone]
      simp [lookup_cons]
    · rw [if_neg h]
      rcases hl : List.lookup k' m with _ | w
      · simp only [hl]
        simp [lookup_cons, h]
      · simp [hl]

theorem jsSet_keys_nodup {α : Type} (m : List (String × α)) (k : String) (v : α)
    (h : (m.map (fun e => e.1)).Nodup) : ((jsSet m k v).map (fun e => e.1)).Nodup := by
  unfold jsSet
  by_cases hpres : (m.find? (fun e => e.1 == k)).isSome = true
  · rw [if_pos hpres]
    have hk : (m.map (fun e => if e.1 == k then (k, v) else e)).map (fun e => e.1)
        = m.map (fun e => e.1) := by
      rw [List.map_map]
      apply List.map_congr_left
      intro e _
      by_cases he : e.1 = k
      · simp [he]
      · simp [he]
    rw [hk]
    exact h
  · have hnone : List.lookup k m = none := by
      rw [find?_key_isSome] at hpres
      rcases hl : List.lookup k m with _ | w
      · rfl
      · rw [hl] at hpres
        simp at hpres
    rw [if_neg hpres]
    rw [lookup_none_iff_not_mem_keys] at hnone
    simp only [List.map_append, List.map_cons, List.map_nil]
    rw [List.nodup_append]
    exact ⟨h, List.nodup_singleton k, by simpa using hnone⟩

theorem inferStep_lookup_other (sys acc : RawMap) (q pid : String) (h : q ≠ pid) :
    List.lookup pid (inferStep sys acc q) = List.lookup pid acc := by
  unfold inferStep
  by_cases hs : (List.lookup q sys).isSome = true
  · rw [if_pos hs]
  · rw [if_neg hs]
    rcases hm : matchLagrange q with _ | ⟨e1, e2⟩
    · rfl
    · rw [lookup_jsSet, if_neg (fun hh => h hh.symm)]

theorem inferFold_lookup (sys : RawMap) (pid d1 d2 : String)
    (habs : List.lookup pid sys = none) (hm : matchLagrange pid = some (d1, d2)) :
    ∀ (l : List String) (acc : RawMap),
      List.lookup pid (l.foldl (inferStep sys) acc)
        = if pid ∈ l then some (inferredLagrange pid d1 d2)
          else List.lookup pid acc := by
  intro l
  induction l with
  | nil => intro acc; simp
  | cons q rest ih =>
    intro acc
    simp only [List.foldl_cons]
    by_cases hq : q = pid
    · subst hq
      have hstep : inferStep sys acc q = jsSet acc q (inferredLagrange q d1 d2) := by
        unfold inferStep
        rw [habs, hm]
        rfl
      rw [hstep, ih]
      by_cases hmem : q ∈ rest
      · simp [hmem]
      · rw [if_neg hmem, lookup_jsSet, if_pos rfl, if_pos (List.mem_cons_self q rest)]
    · rw [ih, inferStep_lookup_other sys acc q pid hq]
      by_cases hmem : pid ∈ rest
      · rw [if_pos hmem, if_pos (List.mem_cons_of_mem q hmem)]
      · have hne : pid ∉ q :: rest := by
          simp only [List.mem_cons, not_or]
          exact ⟨fun hh => hq hh.symm, hmem⟩
        rw [if_neg hmem, if_neg hne]

theorem inferFold_keys_nodup (sys : RawMap) :
    ∀ (l : List String) (acc : RawMap), (acc.map (fun e => e.1)).Nodup →
      ((l.foldl (inferStep sys) acc).map (fun e => e.1)).Nodup := by
  intro l
  induction l with
  | nil => intro acc h; exact h
  | cons q rest ih =>
    intro acc h
    simp only [List.foldl_cons]
    apply ih
    unfold inferStep
    by_cases hs : (List.lookup q sys).isSome = true
    · rw [if_pos hs]; exact h
    · rw [if_neg hs]
      rcases hmq : matchLagrange q with _ | ⟨e1, e2⟩
      · exact h
      · exact jsSet_keys_nodup acc q _ h

theorem mergeFold_preserve (pid : String) :
    ∀ (ext : RawMap) (base : RawMap), pid ∉ ext.map (fun e => e.1) →
      List.lookup pid (ext.foldl (fun s e => jsSet s e.1 e.2) base)
        = List.lookup pid base := by
  intro ext
  induction ext with
  | nil => intro base _; rfl
  | cons kv rest ih =>
    intro base h
    simp only [List.map_cons, List.mem_cons, not_or] at h
    simp only [List.foldl_cons]
    rw [ih _ h.2, lookup_jsSet, if_neg h.1]

theorem mergeFold_lookup (pid : String) :
    ∀ (ext base : RawMap), (ext.map (fun e => e.1)).Nodup →
      List.lookup pid base = none →
      List.lookup pid (ext.foldl (fun s e => jsSet s e.1 e.2) base)
        = List.lookup pid ext := by
  intro ext
  induction ext with
  | nil => intro base _ hb; simpa using hb
  | cons kv rest ih =>
    intro base hnd hb
    rcases kv with ⟨k, v⟩
    simp only [List.map_cons, List.nodup_cons] at hnd
    simp only [List.foldl_cons]
    by_cases hk : k = pid
    · subst hk
      rw [mergeFold_preserve k rest _ hnd.1, lookup_jsSet, if_pos rfl,
        lookup_cons, if_pos rfl]
    · rw [ih (jsSet base k v) hnd.2 (by rw [lookup_jsSet, if_neg (fun hh => hk hh.symm)]; exact hb),
        lookup_cons, if_neg (fun hh => hk hh.symm)]

theorem lookup_buildObjects (m : RawMap) (pid : String) :
    List.lookup pid (buildObjects m)
      = (List.lookup pid m).map (fun d => createCelestialObject pid d) := by
  induction m with
  | nil => rfl
  | cons kv rest ih =>
    rcases kv with ⟨k, d⟩
    simp only [buildObjects, List.map_cons] at *
    rw [lookup_cons, lookup_cons]
    by_cases h : pid = k
    · subst h
      simp
    · rw [if_neg h, if_neg h]
      exact ih

/-- C3: a parent id referenced by some record, absent from the record set
and matching `/stanton(\d+)_l(\d+)/`, is synthesized as the placeholder
LagrangePoint record (zero position, unit rotation, radius 1000),
parented to `stanton` + planet-number, before object construction; the
constructed by-id map then contains the object built from it. -/
theorem C3_lagrange_inference (sys : RawMap) (pid d1 d2 : String)
    (href : pid ∈ referencedParents sys)
    (habs : List.lookup pid sys = none)
    (hm : matchLagrange pid = some (d1, d2)) :
    List.lookup pid (createInferredObjects sys) = some (inferredLagrange pid d1 d2) ∧
      ∀ r, processSystemData sys = some r →
        List.lookup pid r.objectsById
          = some (createCelestialObject pid (inferredLagrange pid d1 d2)) := by
  have h1 : List.lookup pid (createInferredObjects sys)
      = some (inferredLagrange pid d1 d2) := by
    unfold createInferredObjects
    rw [mergeFold_lookup pid _ sys (inferFold_keys_nodup sys _ [] (by simp)) habs,
      inferFold_lookup sys pid d1 d2 habs hm _ [], if_pos href]
  refine ⟨h1, ?_⟩
  intro r hr
  simp only [processSystemData] at hr
  rcases hfs : findStar (buildObjects (createInferredObjects sys))
      (buildByType (buildObjects (createInferredObjects sys))) with _ | star
  · rw [hfs] at hr
    cases hr
  · rw [hfs] at hr
    simp only at hr
    cases hr
    rw [lookup_buildObjects, h1]
    rfl

/-- Witness for C3: building `{stanton3: {}, outpost_a: {parent:
"stanton3_l1"}}` synthesizes `stanton3_l1` parented to `stanton3`, and
the built system contains the object constructed from it. -/
theorem C3_witness :
    List.lookup "stanton3_l1" (createInferredObjects ex3)
        = some (inferredLagrange "stanton3_l1" "3" "1") ∧
      (inferredLagrange "stanton3_l1" "3" "1").parent = some "stanton3" ∧
      (processSystemData ex3).map (fun r => List.lookup "stanton3_l1" r.objectsById)
        = some (some (createCelestialObject "stanton3_l1"
            (inferredLagrange "stanton3_l1" "3" "1"))) := by
  have h := C3_lagrange_inference ex3 "stanton3_l1" "3" "1"
    (by decide) (by decide) (by decide)
  refine ⟨h.1, by decide, ?_⟩
  rcases hps : processSystemData ex3 with _ | r
  · exact absurd hps (by decide)
  · rw [Option.map_some']
    exact congrArg some (h.2 r hps)

/-- C4 counterexample: for id `xx_reststop` with payload type `Planet`,
the code classifies as `Planet` — the payload `type` fires at the planet
branch before the later `reststop` keyword is tested — while the claim's
keyword-first algorithm yields `RestStop`: the payload type is *not*
consulted only when no keyword matches. -/
theorem C4_counterexample :
    classify "xx_reststop" (some "Planet") ≠ classifyClaim "xx_reststop" (some "Planet") ∧
      classify "xx_reststop" (some "Planet") = "Planet" ∧
      classifyClaim "xx_reststop" (some "Planet") = "RestStop" := by
  decide

/-- C4 as amended: classification is a total deterministic function that
checks the rule table in priority order, first firing rule wins, where
the planet/moon/station/outpost/reststop/landingzone/orbitmarker rules
fire on the id keyword *or* an exactly matching payload `type` (so the
payload type can preempt later keywords), with fallback to the payload
type string, else `Generic`. -/
theorem C4_classify_eq_amended :
    ∀ (id : String) (dtype : Option String), classify id dtype = classifyAmended id dtype := by
  intro id dtype
  by_cases h1 : strIncludes (strToLower id) "jumppoint" = true
  · simp [classify, classifyAmended, classifyRules, ruleMatches, h1]
  · by_cases h2 : strIncludes (strToLower id) "lagrange" = true
    · simp [classify, classifyAmended, classifyRules, ruleMatches, h1, h2]
    · by_cases h3 : strIncludes (strToLower id) "commarray" = true
      · simp [classify, classifyAmended, classifyRules, ruleMatches, h1, h2, h3]
      · by_cases h4 : strIncludes (strToLower id) "star" = true
        · simp [classify, classifyAmended, classifyRules, ruleMatches, h1, h2, h3, h4]
        · by_cases h5 : (strIncludes (strToLower id) "planet" || typeIs dtype "Planet") = true
          · simp [classify, classifyAmended, classifyRules, ruleMatches, h1, h2, h3, h4, h5]
          · by_cases h6 : (strIncludes (strToLower id) "moon" || typeIs dtype "Moon") = true
            · simp [classify, classifyAmended, classifyRules, ruleMatches,
                h1, h2, h3, h4, h5, h6]
            · by_cases h7 : (strIncludes (strToLower id) "station"
                  || typeIs dtype "Station") = true
              · simp [classify, classifyAmended, classifyRules, ruleMatches,
                  h1, h2, h3, h4, h5, h6, h7]
              · by_cases h8 : (strIncludes (strToLower id) "outpost"
                    || typeIs dtype "Outpost") = true
                · simp [classify, classifyAmended, classifyRules, ruleMatches,
                    h1, h2, h3, h4, h5, h6, h7, h8]
                · by_cases h9 : (strIncludes (strToLower id) "reststop"
                      || typeIs dtype "RestStop") = true
                  · simp [classify, classifyAmended, classifyRules, ruleMatches,
                      h1, h2, h3, h4, h5, h6, h7, h8, h9]
                  · by_cases h10 : (strIncludes (strToLower id) "landingzone"
                        || typeIs dtype "LandingZone") = true
                    · simp [classify, classifyAmended, classifyRules, ruleMatches,
                        h1, h2, h3, h4, h5, h6, h7, h8, h9, h10]
                    · by_cases h11 : (strIncludes (strToLower id) "orbitmarker"
                          || typeIs dtype "OrbitMarker") = true
                      · simp [classify, classifyAmended, classifyRules, ruleMatches,
                          h1, h2, h3, h4, h5, h6, h7, h8, h9, h10, h11]
                      · simp [classify, classifyAmended, classifyRules, ruleMatches,
                          h1, h2, h3, h4, h5, h6, h7, h8, h9, h10, h11]

theorem foldl_add_safetyScore (l : List RouteAlert) :
    ∀ init : ℚ, l.foldl (fun sum alert => sum + alert.safetyScore) init
      = init + (l.map (fun alert => alert.safetyScore)).sum := by
  induction l with
  | nil => intro init; simp
  | cons a rest ih =>
    intro init
    simp only [List.foldl_cons, List.map_cons, List.sum_cons, ih]
    ring

theorem calculateWaypointSafety_eq_spec (l : List RouteAlert) :
    calculateWaypointSafety l = waypointSafetySpec l := by
  unfold calculateWaypointSafety waypointSafetySpec
  by_cases h : l = []
  · simp [h]
  · have hne : l.isEmpty = false := by
      simpa [List.isEmpty_iff] using h
    rw [hne, if_neg h]
    simp only [Bool.false_eq_true, if_false, foldl_add_safetyScore, zero_add]
    congr 1
    congr 1
    ring

theorem foldl_add_wpScore (l : List RouteWaypoint) :
    ∀ init : ℚ, l.foldl (fun sum wp => sum + wp.safetyScore) init
      = init + (l.map (fun wp => wp.safetyScore)).sum := by
  induction l with
  | nil => intro init; simp
  | cons a rest ih =>
    intro init
    simp only [List.foldl_cons, List.map_cons, List.sum_cons, ih]
    ring

/-- C7: on any system containing both endpoints, `planRoute` without a
ship returns a plan with exactly three waypoints; total distance is the
Euclidean distance between the endpoints' stored positions; total time is
that distance over the default quantum speed 200,000; fuel is 0; the
waypoint safety scores are exactly the claim's formula applied to the
alerts within the fixed 1,000,000-unit radius of the start, geometric
midpoint, and end; and the overall score is their arithmetic mean. -/
theorem C7_planRoute_spec (data : StantonSystem) (s e : String)
    (alerts : List RouteAlert) (ship : Option ShipSpecification)
    (so eo : StantonCelestialObject)
    (h1 : List.lookup s data = some so) (h2 : List.lookup e data = some eo) :
    ∃ plan, planRoute data s e alerts ship = some plan ∧
      plan.waypoints.length = 3 ∧
      plan.waypoints.map (fun wp => wp.objectId) = [s, "midpoint", e] ∧
      plan.totalDistance = calculateDistance so.position eo.position ∧
      plan.totalTime = plan.totalDistance / ((effectiveQuantumSpeed ship : ℚ) : ℝ) ∧
      (ship = none → effectiveQuantumSpeed ship = 200000 ∧ plan.fuelRequired = 0) ∧
      plan.waypoints.map (fun wp => wp.safetyScore) =
        [waypointSafetySpec (findAlertsInRadius so.position alerts 1000000),
         waypointSafetySpec (findAlertsInRadius (midpointOf so eo) alerts 1000000),
         waypointSafetySpec (findAlertsInRadius eo.position alerts 1000000)] ∧
      plan.overallSafetyScore = (plan.waypoints.map (fun wp => wp.safetyScore)).sum / 3 := by
  unfold planRoute
  rw [h1, h2]
  refine ⟨_, rfl, rfl, rfl, rfl, rfl, ?_, ?_, ?_⟩
  · intro hship
    subst hship
    exact ⟨rfl, rfl⟩
  · simp only [List.map_cons, List.map_nil, calculateWaypointSafety_eq_spec]
    rfl
  · rw [foldl_add_wpScore]
    simp only [List.map_cons, List.map_nil, List.length_cons, List.length_nil, zero_add]
    norm_num

theorem distance_routeEx :
    calculateDistance (⟨0, 0, 0⟩ : Position) (⟨1000000, 0, 0⟩ : Position) = 1000000 := by
  unfold calculateDistance
  have h1 : distSq (⟨0, 0, 0⟩ : Position) (⟨1000000, 0, 0⟩ : Position)
      = 1000000 * 1000000 := by
    norm_num [distSq]
  rw [h1]
  have h2 : ((1000000 * 1000000 : ℚ) : ℝ) = 1000000 * 1000000 := by
    push_cast
    ring
  rw [h2, Real.sqrt_mul_self (by norm_num : (0 : ℝ) ≤ 1000000)]

/-- Witness for C7: two objects 1,000,000 units apart, no ship, no
hazards: distance 1,000,000, time 5, fuel 0, overall score 100, exactly
three waypoints. -/
theorem C7_witness :
    (planRoute routeExData "a" "b" [] none).map (fun p => p.totalDistance) = some 1000000 ∧
      (planRoute routeExData "a" "b" [] none).map (fun p => p.totalTime) = some 5 ∧
      (planRoute routeExData "a" "b" [] none).map (fun p => p.fuelRequired) = some 0 ∧
      (planRoute routeExData "a" "b" [] none).map (fun p => p.overallSafetyScore) = some 100 ∧
      (planRoute routeExData "a" "b" [] none).map (fun p => p.waypoints.length) = some 3 := by
  obtain ⟨plan, hp, hlen, _, hd, ht, hf, hs, ho⟩ :=
    C7_planRoute_spec routeExData "a" "b" [] none
      (mkSObj "a" "Generic" "" ⟨0, 0, 0⟩) (mkSObj "b" "Generic" "" ⟨1000000, 0, 0⟩)
      (by decide) (by decide)
  have hd1 : plan.totalDistance = 1000000 := by
    rw [hd]
    exact distance_routeEx
  have ht1 : plan.totalTime = 5 := by
    rw [ht, hd1, (hf rfl).1]
    norm_num
  have hs1 : plan.waypoints.map (fun wp => wp.safetyScore) = [100, 100, 100] := by
    rw [hs]
    rfl
  have ho1 : plan.overallSafetyScore = 100 := by
    rw [ho, hs1]
    norm_num
  rw [hp]
  exact ⟨by rw [Option.map_some', hd1], by rw [Option.map_some', ht1],
    by rw [Option.map_some', (hf rfl).2], by rw [Option.map_some', ho1],
    by rw [Option.map_some', hlen]⟩

theorem planRoute_isSome (data : StantonSystem) (s e : String)
    (alerts : List RouteAlert) (ship : Option ShipSpecification) :
    (planRoute data s e alerts ship).isSome
      = ((List.lookup s data).isSome && (List.lookup e data).isSome) := by
  rcases h1 : List.lookup s data with _ | so <;>
    rcases h2 : List.lookup e data with _ | eo <;>
      simp [planRoute, h1, h2]

theorem insertDesc_perm (r : RoutePlan) (l : List RoutePlan) :
    List.Perm (insertDesc r l) (r :: l) := by
  induction l with
  | nil => exact List.Perm.refl _
  | cons x xs ih =>
    unfold insertDesc
    by_cases h : x.overallSafetyScore < r.overallSafetyScore
    · rw [if_pos h]
    · rw [if_neg h]
      exact (ih.cons x).trans (List.Perm.swap r x xs)

theorem sortDesc_perm (l : List RoutePlan) : List.Perm (sortDesc l) l := by
  induction l with
  | nil => exact List.Perm.refl _
  | cons x xs ih =>
    exact (insertDesc_perm x (sortDesc xs)).trans (ih.cons x)

theorem pairwise_insertDesc (r : RoutePlan) (l : List RoutePlan)
    (h : List.Pairwise
      (fun a b => b.overallSafetyScore ≤ a.overallSafetyScore) l) :
    List.Pairwise (fun a b => b.overallSafetyScore ≤ a.overallSafetyScore)
      (insertDesc r l) := by
  induction l with
  | nil => simp [insertDesc]
  | cons x xs ih =>
    rw [List.pairwise_cons] at h
    unfold insertDesc
    by_cases hc : x.overallSafetyScore < r.overallSafetyScore
    · rw [if_pos hc]
      refine List.Pairwise.cons ?_ (List.Pairwise.cons h.1 h.2)
      intro y hy
      rcases List.mem_cons.mp hy with hy | hy
      · subst hy
        exact le_of_lt hc
      · exact le_trans (h.1 y hy) (le_of_lt hc)
    · rw [if_neg hc]
      refine List.Pairwise.cons ?_ (ih h.2)
      intro y hy
      have hy' : y ∈ r :: xs := (insertDesc_perm r xs).mem_iff.mp hy
      rcases List.mem_cons.mp hy' with hy1 | hy1
      · subst hy1
        exact not_lt.mp hc
      · exact h.1 y hy1
  
theorem pairwise_sortDesc (l : List RoutePlan) :
    List.Pairwise (fun a b => b.overallSafetyScore ≤ a.overallSafetyScore)
      (sortDesc l) := by
  induction l with
  | nil => simp [sortDesc]
  | cons x xs ih => exact pairwise_insertDesc x (sortDesc xs) ih

theorem altLoop_spec (data : StantonSystem) (s e : String)
    (alerts : List RouteAlert) (maxAlt : Nat) (direct : RoutePlan)
    (hs : (List.lookup s data).isSome = true)
    (he : (List.lookup e data).isSome = true) :
    ∀ (cands : List StantonCelestialObject) (acc : List RoutePlan),
      (∀ w ∈ cands, (List.lookup w.name data).isSome = true) →
      acc.length ≤ maxAlt →
      (∀ r ∈ acc, direct.overallSafetyScore + 5 < r.overallSafetyScore) →
      ∃ acc', altLoop data s e alerts maxAlt direct cands acc = some acc' ∧
        acc'.length ≤ maxAlt ∧
        ∀ r ∈ acc', direct.overallSafetyScore + 5 < r.overallSafetyScore := by
  intro cands
  induction cands with
  | nil => intro acc _ hlen hprop; exact ⟨acc, rfl, hlen, hprop⟩
  | cons w rest ih =>
    intro acc hc hlen hprop
    have hw : (List.lookup w.name data).isSome = true := hc w (List.mem_cons_self w rest)
    obtain ⟨r1, hr1⟩ : ∃ r1, planRoute data s w.name alerts none = some r1 := by
      rcases hh : planRoute data s w.name alerts none with _ | r1
      · have := planRoute_isSome data s w.name alerts none
        rw [hh, hs, hw] at this
        cases this
      · exact ⟨r1, rfl⟩
    obtain ⟨r2, hr2⟩ : ∃ r2, planRoute data w.name e alerts none = some r2 := by
      rcases hh : planRoute data w.name e alerts none with _ | r2
      · have := planRoute_isSome data w.name e alerts none
        rw [hh, hw, he] at this
        cases this
      · exact ⟨r2, rfl⟩
    by_cases hfull : maxAlt ≤ acc.length
    · refine ⟨acc, ?_, hlen, hprop⟩
      unfold altLoop
      rw [if_pos hfull]
    · by_cases hcond : direct.overallSafetyScore + 5
          < (r1.overallSafetyScore + r2.overallSafetyScore) / 2
      · obtain ⟨acc', hloop, hlen', hprop'⟩ := ih (acc ++
          [{ startObjectId := s, endObjectId := e,
             waypoints := r1.waypoints.dropLast ++ r2.waypoints,
             totalDistance := r1.totalDistance + r2.totalDistance,
             totalTime := r1.totalTime + r2.totalTime,
             fuelRequired := r1.fuelRequired + r2.fuelRequired,
             overallSafetyScore := (r1.overallSafetyScore + r2.overallSafetyScore) / 2 }])
          (fun x hx => hc x (List.mem_cons_of_mem w hx))
          (by
            rw [List.length_append, List.length_singleton]
            omega)
          (by
            intro r hr
            rcases List.mem_append.mp hr with hr | hr
            · exact hprop r hr
            · rw [List.mem_singleton] at hr
              subst hr
              exact hcond)
        refine ⟨acc', ?_, hlen', hprop'⟩
        unfold altLoop
        rw [if_neg hfull]
        simp only [hr1, hr2]
        rw [if_pos hcond]
        exact hloop
      · obtain ⟨acc', hloop, hlen', hprop'⟩ := ih acc
          (fun x hx => hc x (List.mem_cons_of_mem w hx)) hlen hprop
        refine ⟨acc', ?_, hlen', hprop'⟩
        unfold altLoop
        rw [if_neg hfull]
        simp only [hr1, hr2]
        rw [if_neg hcond]
        exact hloop

/-- C8 as amended: when the direct route exists *and every candidate
via-point's `name` field resolves as a key of the system map* (the code
looks candidates up by their `name` field, and a failing leg aborts the
whole call), `findAlternativeRoutes` returns a non-empty list containing
the direct route, sorted by descending overall safety score, equal to
`[directRoute]` alone when the direct score is at least 90, with at most
`maxAlternatives` routes beyond the direct one, each of which beats the
direct route's score by more than 5. -/
theorem C8_findAlternatives_spec (data : StantonSystem) (s e : String)
    (alerts : List RouteAlert) (maxAlt : Nat) (direct : RoutePlan)
    (hd : planRoute data s e alerts none = some direct)
    (hc : ∀ w ∈ waypointCandidates data s e, (List.lookup w.name data).isSome = true) :
    ∃ l, findAlternativeRoutes data s e alerts maxAlt = some l ∧
      direct ∈ l ∧ l ≠ [] ∧
      List.Pairwise (fun a b => b.overallSafetyScore ≤ a.overallSafetyScore) l ∧
      ((90 : ℚ) ≤ direct.overallSafetyScore → l = [direct]) ∧
      l.length ≤ maxAlt + 1 ∧
      ∀ r ∈ l, r = direct ∨ direct.overallSafetyScore + 5 < r.overallSafetyScore := by
  have hse : ((List.lookup s data).isSome && (List.lookup e data).isSome) = true := by
    rw [← planRoute_isSome data s e alerts none, hd]
    rfl
  rw [Bool.and_eq_true] at hse
  unfold findAlternativeRoutes
  simp only [hd]
  by_cases h90 : (90 : ℚ) ≤ direct.overallSafetyScore
  · rw [if_pos h90]
    refine ⟨[direct], rfl, List.mem_singleton_self direct, by simp, ?_, fun _ => rfl, by simp, ?_⟩
    · simp
    · intro r hr
      exact Or.inl (List.mem_singleton.mp hr)
  · rw [if_neg h90]
    obtain ⟨acc', hloop, hlen', hprop'⟩ :=
      altLoop_spec data s e alerts maxAlt direct hse.1 hse.2
        (waypointCandidates data s e) [] hc (by simp) (by simp)
    rw [hloop]
    have hperm := sortDesc_perm (direct :: acc')
    refine ⟨sortDesc (direct :: acc'), rfl, ?_, ?_, pairwise_sortDesc _,
      fun h => absurd h h90, ?_, ?_⟩
    · exact hperm.mem_iff.mpr (List.mem_cons_self direct acc')
    · intro hnil
      have := hperm.length_eq
      rw [hnil] at this
      simp at this
    · rw [hperm.length_eq, List.length_cons]
      omega
    · intro r hr
      rcases List.mem_cons.mp (hperm.mem_iff.mp hr) with hr1 | hr1
      · exact Or.inl hr1
      · exact Or.inr (hprop' r hr1)

/-- Witness for C8 as amended: on the two-object system with no hazards
the direct route scores 100 (at least 90), so the result is exactly one
route — the direct one. -/
theorem C8_witness :
    (findAlternativeRoutes routeExData "a" "b" [] 3).isSome = true ∧
      (findAlternativeRoutes routeExData "a" "b" [] 3).map (fun l => l.length) = some 1 := by
  rcases hd : planRoute routeExData "a" "b" [] none with _ | direct
  · have := planRoute_isSome routeExData "a" "b" [] none
    rw [hd] at this
    exact absurd this.symm (by decide)
  · have hscore : direct.overallSafetyScore = 100 := by
      unfold planRoute at hd
      simp only [show List.lookup "a" routeExData
          = some (mkSObj "a" "Generic" "" ⟨0, 0, 0⟩) from by decide,
        show List.lookup "b" routeExData
          = some (mkSObj "b" "Generic" "" ⟨1000000, 0, 0⟩) from by decide] at hd
      have hd' := Option.some.inj hd
      rw [← hd']
      simp only [findAlertsInRadius, List.filter_nil, calculateWaypointSafety,
        List.isEmpty_nil, if_true, List.foldl_cons, List.foldl_nil,
        List.length_cons, List.length_nil]
      norm_num
    obtain ⟨l, hl, _, _, _, h90, _, _⟩ :=
      C8_findAlternatives_spec routeExData "a" "b" [] 3 direct hd (by decide)
    have hl1 : l = [direct] := h90 (by rw [hscore]; norm_num)
    rw [hl, hl1]
    exact ⟨rfl, rfl⟩

/-- C8 counterexample: on `altCexData` (dangerous direct route, score 0)
the only candidate via-point is stored under key `c` but carries
`name := "ghost"`; `findAlternativeRoutes` looks the candidate up by its
`name` field, the inner `planRoute` throws, and the whole call fails —
even though the direct `planRoute` succeeds.  The claim's promised
non-empty result containing the direct route does not materialize. -/
theorem C8_counterexample :
    (planRoute altCexData "s" "e" [alertEx] none).isSome = true ∧
      findAlternativeRoutes altCexData "s" "e" [alertEx] 3 = none := by
  constructor
  · rw [planRoute_isSome]
    decide
  · rcases hd : planRoute altCexData "s" "e" [alertEx] none with _ | direct
    · have hps := planRoute_isSome altCexData "s" "e" [alertEx] none
      rw [hd] at hps
      exact absurd hps.symm (by decide)
    · have hscore : direct.overallSafetyScore = 0 := by
        unfold planRoute at hd
        simp only [show List.lookup "s" altCexData
            = some (mkSObj "s" "Generic" "" ⟨0, 0, 0⟩) from by decide,
          show List.lookup "e" altCexData
            = some (mkSObj "e" "Generic" "" ⟨1000000, 0, 0⟩) from by decide] at hd
        have hd' := Option.some.inj hd
        rw [← hd']
        simp only [mkSObj, alertEx, findAlertsInRadius, List.filter_cons, List.filter_nil]
        norm_num [withinRadius, distSq, calculateWaypointSafety]
      have hpg : planRoute altCexData "s" "ghost" [alertEx] none = none := by
        unfold planRoute
        simp only [show List.lookup "ghost" altCexData = none from by decide]
        rcases List.lookup "s" altCexData with _ | x <;> rfl
      unfold findAlternativeRoutes
      simp only [hd]
      rw [if_neg (by rw [hscore]; norm_num)]
      rw [show waypointCandidates altCexData "s" "e"
          = [mkSObj "ghost" "Station" "" ⟨0, 0, 0⟩] from by decide]
      unfold altLoop
      rw [if_neg (by norm_num : ¬(3 ≤ ([] : List RoutePlan).length))]
      simp only [mkSObj]
      simp only [hpg]

theorem reaches_mono (byId : List (String × CelestialObject)) (root : String) :
    ∀ (n m : Nat) (p : String), m ≤ n → reaches byId root p m = true →
      reaches byId root p n = true := by
  intro n
  induction n with
  | zero =>
    intro m p hm h
    rw [Nat.le_zero] at hm
    subst hm
    exact h
  | succ n ih =>
    intro m p hm h
    rcases m with _ | m'
    · unfold reaches at h
      unfold reaches
      rw [h]
      rfl
    · unfold reaches at h
      unfold reaches
      cases hb : (p == root) with
      | true => rfl
      | false =>
        rw [hb] at h
        simp only [Bool.false_or] at h ⊢
        rcases hl : List.lookup p byId with _ | o
        · rw [hl] at h
          cases h
        · rw [hl] at h
          exact ih m' o.parent (Nat.le_of_succ_le_succ hm) h

theorem walkSeq_succ (byId : List (String × CelestialObject)) (p : String) (n : Nat) :
    walkSeq byId p (n + 1) =
      match List.lookup p byId with
      | none => none
      | some o => walkSeq byId o.parent n := rfl

theorem walkSeq_add (byId : List (String × CelestialObject)) :
    ∀ (i j : Nat) (p : String),
      walkSeq byId p (i + j) =
        match walkSeq byId p i with
        | none => none
        | some q => walkSeq byId q j := by
  intro i
  induction i with
  | zero =>
    intro j p
    rw [Nat.zero_add]
    rfl
  | succ i ih =>
    intro j p
    have hadd : i + 1 + j = (i + j) + 1 := by omega
    rw [hadd]
    rcases hl : List.lookup p byId with _ | o
    · have h1 : walkSeq byId p ((i + j) + 1) = none := by
        rw [walkSeq_succ, hl]
      have h2 : walkSeq byId p (i + 1) = none := by
        rw [walkSeq_succ, hl]
      rw [h1, h2]
    · have h1 : walkSeq byId p ((i + j) + 1) = walkSeq byId o.parent (i + j) := by
        rw [walkSeq_succ, hl]
      have h2 : walkSeq byId p (i + 1) = walkSeq byId o.parent i := by
        rw [walkSeq_succ, hl]
      rw [h1, h2, ih j o.parent]

theorem reaches_iff_walkSeq (byId : List (String × CelestialObject)) (root : String) :
    ∀ (n : Nat) (p : String), reaches byId root p n = true ↔
      ∃ i, i ≤ n ∧ walkSeq byId p i = some root := by
  intro n
  induction n with
  | zero =>
    intro p
    unfold reaches
    constructor
    · intro h
      refine ⟨0, le_refl 0, ?_⟩
      unfold walkSeq
      simpa using h
    · rintro ⟨i, hi, hw⟩
      rw [Nat.le_zero] at hi
      subst hi
      unfold walkSeq at hw
      simp only [Option.some.injEq] at hw
      simp [hw]
  | succ n ih =>
    intro p
    constructor
    · intro h
      unfold reaches at h
      cases hb : (p == root) with
      | true =>
        have hpr : p = root := by simpa using hb
        refine ⟨0, by omega, ?_⟩
        unfold walkSeq
        rw [hpr]
      | false =>
        rw [hb] at h
        simp only [Bool.false_or] at h
        rcases hl : List.lookup p byId with _ | o
        · rw [hl] at h
          cases h
        · rw [hl] at h
          obtain ⟨i, hi, hw⟩ := (ih o.parent).mp h
          refine ⟨i + 1, by omega, ?_⟩
          unfold walkSeq
          rw [hl]
          exact hw
    · rintro ⟨i, hi, hw⟩
      unfold reaches
      rcases i with _ | i'
      · unfold walkSeq at hw
        simp only [Option.some.injEq] at hw
        simp [hw]
      · cases hb : (p == root) with
        | true => rfl
        | false =>
          simp only [Bool.false_or]
          rcases hl : List.lookup p byId with _ | o
          · exfalso
            unfold walkSeq at hw
            rw [hl] at hw
            cases hw
          · have hw' : walkSeq byId o.parent i' = some root := by
              unfold walkSeq at hw
              rw [hl] at hw
              exact hw
            exact (ih o.parent).mpr ⟨i', by omega, hw'⟩

theorem walkSeq_isSome_of_le (byId : List (String × CelestialObject)) (p : String)
    (i j : Nat) (hj : j ≤ i) (x : String) (h : walkSeq byId p i = some x) :
    ∃ y, walkSeq byId p j = some y := by
  rcases hji : walkSeq byId p j with _ | y
  · exfalso
    have hi : i = j + (i - j) := by omega
    rw [hi, walkSeq_add, hji] at h
    cases h
  · exact ⟨y, rfl⟩

theorem reaches_within_card (byId : List (String × CelestialObject)) (root p : String)
    (k : Nat) (h : reaches byId root p k = true) :
    reaches byId root p byId.length = true := by
  obtain ⟨i, _, hwi⟩ := (reaches_iff_walkSeq byId root k p).mp h
  have hex : ∃ i, walkSeq byId p i = some root := ⟨i, hwi⟩
  have hi0 : walkSeq byId p (Nat.find hex) = some root := Nat.find_spec hex
  have hmin : ∀ j, j < Nat.find hex → ¬walkSeq byId p j = some root :=
    fun j hj => Nat.find_min hex hj
  suffices hle : Nat.find hex ≤ byId.length by
    exact (reaches_iff_walkSeq byId root byId.length p).mpr ⟨Nat.find hex, hle, hi0⟩
  have hvals : ∀ j, j < Nat.find hex → ∃ q, walkSeq byId p j = some q ∧
      q ≠ root ∧ q ∈ byId.map (fun e2 => e2.1) := by
    intro j hj
    obtain ⟨q, hq⟩ := walkSeq_isSome_of_le byId p (Nat.find hex) j (le_of_lt hj) root hi0
    refine ⟨q, hq, ?_, ?_⟩
    · intro hqr
      exact hmin j hj (by rw [hq, hqr])
    · obtain ⟨y, hy⟩ := walkSeq_isSome_of_le byId p (Nat.find hex) (j + 1) hj root hi0
      have h1 : walkSeq byId q 1 = some y := by
        have h2 := walkSeq_add byId j 1 p
        rw [hq] at h2
        have h2' : walkSeq byId p (j + 1) = walkSeq byId q 1 := h2
        rw [← h2', hy]
      rcases hl : List.lookup q byId with _ | o
      · exfalso
        rw [walkSeq_succ, hl] at h1
        cases h1
      · by_contra hqmem
        rw [← lookup_none_iff_not_mem_keys] at hqmem
        rw [hqmem] at hl
        cases hl
  have hne : ∀ a b, a < b → b < Nat.find hex →
      walkSeq byId p a ≠ walkSeq byId p b := by
    intro a b hab hb habs
    obtain ⟨q, hqa, _, _⟩ := hvals a (lt_trans hab hb)
    have hqb : walkSeq byId p b = some q := by rw [← habs, hqa]
    have h1 : walkSeq byId q (Nat.find hex - b) = some root := by
      have h2 := walkSeq_add byId b (Nat.find hex - b) p
      rw [show b + (Nat.find hex - b) = Nat.find hex from by omega, hqb] at h2
      have h2' : walkSeq byId p (Nat.find hex) = walkSeq byId q (Nat.find hex - b) := h2
      rw [← h2', hi0]
    have h3 : walkSeq byId p (a + (Nat.find hex - b)) = some root := by
      have h4 := walkSeq_add byId a (Nat.find hex - b) p
      rw [hqa] at h4
      have h4' : walkSeq byId p (a + (Nat.find hex - b))
          = walkSeq byId q (Nat.find hex - b) := h4
      rw [h4']
      exact h1
    exact hmin (a + (Nat.find hex - b)) (by omega) h3
  have hinj : Set.InjOn (fun j => walkSeq byId p j) (Finset.range (Nat.find hex)) := by
    intro a ha b hb hab
    rcases lt_trichotomy a b with hlt | heq | hlt
    · exact absurd hab (hne a b hlt (Finset.mem_range.mp hb))
    · exact heq
    · exact absurd hab.symm (hne b a hlt (Finset.mem_range.mp ha))
  have hmaps : ∀ j ∈ Finset.range (Nat.find hex),
      walkSeq byId p j ∈ ((byId.map (fun e2 => e2.1)).toFinset).image some := by
    intro j hj
    obtain ⟨q, hq, _, hqmem⟩ := hvals j (Finset.mem_range.mp hj)
    rw [hq]
    exact Finset.mem_image.mpr ⟨q, List.mem_toFinset.mpr hqmem, rfl⟩
  have hcard := Finset.card_le_card_of_injOn _ hmaps hinj
  rw [Finset.card_range] at hcard
  have h5 : (((byId.map (fun e2 => e2.1)).toFinset).image some).card ≤ byId.length := by
    calc (((byId.map (fun e2 => e2.1)).toFinset).image some).card
        ≤ ((byId.map (fun e2 => e2.1)).toFinset).card := Finset.card_image_le
      _ ≤ (byId.map (fun e2 => e2.1)).length := (byId.map (fun e2 => e2.1)).toFinset_card_le
      _ = byId.length := List.length_map byId (fun e2 => e2.1)
  omega

/-- C1 as amended: the parent-chain termination invariant does not hold
in general (see the counterexample: the build repairs only the raw
records, after object construction, and never breaks cycles), but the
hop bound is right for chains that do terminate: in any successfully
built system, a parent chain that reaches the root at all reaches it
within `objectCount` hops. -/
theorem C1_parent_chain_bound :
    ∀ (sys : RawMap) (r : BuildResult), processSystemData sys = some r →
      ∀ (p : String) (k : Nat),
        reaches r.objectsById r.star.name p k = true →
        reaches r.objectsById r.star.name p r.objectsById.length = true := by
  intro sys r _ p k h
  exact reaches_within_card r.objectsById r.star.name p k h

/-- Witness for C1 as amended: in the built lagrange-inference example the
chain `stanton3_l1` → `stanton3` reaches the root `stanton3` within
`objectCount` hops. -/
theorem C1_witness :
    reaches rEx3.objectsById rEx3.star.name "stanton3_l1" rEx3.objectsById.length = true :=
  C1_parent_chain_bound ex3 rEx3 (by decide) "stanton3_l1" 5 (by decide)

theorem safetyScore_eq (c d : ℕ) (h : c + d ≠ 0) :
    calculateSafetyScore c d (7/10) (3/10)
      = max 0 (min 100 (130 - 100 * ((c : ℚ) / ((c + d : ℕ) : ℚ)))) := by
  unfold calculateSafetyScore
  rw [if_neg h]
  push_cast
  ring_nf

/-- C10: under the default weights (0.7, 0.3), the safety score is
monotonically non-increasing in confirmations for any fixed dispute
count, is the neutral 50 with no votes, and always lies in `[0, 100]` —
more confirmations never make an alert appear safer. -/
theorem C10_safetyScore_antitone_in_confirmations (c d : ℕ) :
    calculateSafetyScore (c + 1) d (7/10) (3/10)
        ≤ calculateSafetyScore c d (7/10) (3/10) ∧
      calculateSafetyScore 0 0 (7/10) (3/10) = 50 ∧
      0 ≤ calculateSafetyScore c d (7/10) (3/10) ∧
      calculateSafetyScore c d (7/10) (3/10) ≤ 100 := by
  have h50 : calculateSafetyScore 0 0 (7/10) (3/10) = 50 := by
    unfold calculateSafetyScore
    norm_num
  refine ⟨?_, h50, ?_, ?_⟩
  · by_cases h : c + d = 0
    · obtain ⟨hc, hd⟩ := Nat.add_eq_zero.mp h
      subst hc
      subst hd
      rw [h50, safetyScore_eq 1 0 (by norm_num)]
      norm_num
    · have h1 : (c + 1) + d ≠ 0 := by omega
      rw [safetyScore_eq c d h, safetyScore_eq (c + 1) d h1]
      have hn : (0 : ℚ) < ((c + d : ℕ) : ℚ) := by
        exact_mod_cast Nat.pos_of_ne_zero h
      have hn1 : (0 : ℚ) < ((c + 1 + d : ℕ) : ℚ) := by
        exact_mod_cast Nat.pos_of_ne_zero h1
      have hr : ((c : ℚ) / ((c + d : ℕ) : ℚ))
          ≤ ((c + 1 : ℕ) : ℚ) / ((c + 1 + d : ℕ) : ℚ) := by
        rw [div_le_div_iff₀ hn hn1]
        push_cast
        nlinarith [Nat.cast_nonneg (α := ℚ) d, Nat.cast_nonneg (α := ℚ) c]
      have hraw : (130 : ℚ) - 100 * (((c + 1 : ℕ) : ℚ) / ((c + 1 + d : ℕ) : ℚ))
          ≤ 130 - 100 * ((c : ℚ) / ((c + d : ℕ) : ℚ)) := by
        nlinarith
      exact max_le_max le_rfl (min_le_min le_rfl (by push_cast at hraw ⊢; linarith))
  · by_cases h : c + d = 0
    · obtain ⟨hc, hd⟩ := Nat.add_eq_zero.mp h
      subst hc
      subst hd
      rw [h50]
      norm_num
    · rw [safetyScore_eq c d h]
      exact le_max_left _ _
  · by_cases h : c + d = 0
    · obtain ⟨hc, hd⟩ := Nat.add_eq_zero.mp h
      subst hc
      subst hd
      rw [h50]
      norm_num
    · rw [safetyScore_eq c d h]
      exact max_le (by norm_num) (min_le_left _ _)
